import Mathlib

/-!
Verification of the organization / team access-control model of this
repository. The team sub-model (createTeam, updateTeam, deleteTeam,
addUserToTeam, removeUserFromTeam) is embedded directly from
src/models/organization/organization.team.submodel.ts. The organization
statics (isAuthorized, createOrganization, updateOrganization,
setTeamRole, removeTeamRole, setNestedUserRole) live in files that are
not part of the provided sources (only their test suite is), so they are
modelled from the specification, as marked on each definition.
Identifiers (ObjectId values) are modelled as naturals, dates as
naturals, role tokens as strings.
-/

namespace OrgModel

/-- An access-control entry, the pair of a subject id and a role token,
as stored in an accessControlList field. -/
structure ACE where
  userId : Nat
  role : String
deriving DecidableEq, Repr

/-- A team sub-document of an organization: schema fields name and
logoPath (organization.team.submodel.ts, TeamSchema), its id, and the
accessControlList added by the role-assignment plugin. -/
structure Team where
  id : Nat
  name : String
  logoPath : Option String
  accessControlList : List ACE
deriving DecidableEq, Repr

/-- One entry of a user organizationMemberships array: the organization
id and the ids of the teams of that organization the user belongs to
(the teams array in the user schema). -/
structure Membership where
  organizationId : Nat
  teamIds : List Nat
deriving DecidableEq, Repr

/-- A user document: its id and its organizationMemberships array. -/
structure User where
  id : Nat
  organizationMemberships : List Membership
deriving DecidableEq, Repr

/-- An organization document: schema fields, timestamps, the
accessControlList and the embedded teams sub-collection. -/
structure Organization where
  id : Nat
  name : String
  createdAt : Nat
  updatedAt : Nat
  accessControlList : List ACE
  teams : List Team
deriving DecidableEq, Repr

/-- The datastore: the organizations collection and the users
collection. -/
structure DB where
  organizations : List Organization
  users : List User
deriving DecidableEq, Repr

/-- The error taxonomy relevant to the embedded operations: ResponseError
NotFound thrown by the sub-model operations, and the mongoose
ValidationError raised on malformed create input. -/
inductive ModelError where
  | NotFound
  | ValidationError
deriving DecidableEq, Repr

/-- Mongo findOneAndUpdate semantics over a list: rewrite the first
element satisfying the query with f, leave everything else unchanged. -/
def updateFirst (p : α → Bool) (f : α → α) : List α → List α
  | [] => []
  | x :: xs => if p x then f x :: xs else x :: updateFirst p f xs

/-- Mongo addToSet semantics: append the element unless an equal element
is already present. -/
def addToSet [DecidableEq α] (x : α) (l : List α) : List α :=
  if x ∈ l then l else l ++ [x]

/-- The query of a write addressed at a nested team: the document must
match both the organization id and the team id (findOneAndUpdate filter
with keys id and teams-id). -/
def orgTeamQuery (id teamId : Nat) (o : Organization) : Bool :=
  o.id == id && o.teams.any (fun t => t.id == teamId)

/-- The findOneAndUpdate filter used by addUserToTeam and
removeUserFromTeam on the users collection: the user id must match and
the user must hold a membership entry for the organization. -/
def userMembershipQuery (id userId : Nat) (u : User) : Bool :=
  u.id == userId && u.organizationMemberships.any (fun m => m.organizationId == id)

/-- The optional-field team input of createTeam and updateTeam
(ITeamUpdatableFields): the two updatable fields, each possibly absent.
A value of none stands for a missing, undefined or null field; the empty
string stands for the falsy empty string. -/
structure TeamUpdateInput where
  name : Option String
  logoPath : Option String
deriving DecidableEq, Repr

/-- JavaScript truthiness of an optional string field as tested by the
updateTeam field loop: absent, null, undefined and the empty string are
falsy. -/
def truthy : Option String → Bool
  | some s => s ≠ ""
  | none => false

/-- The field set built by updateTeam: for each field of
TEAM_UPDATABLE_FIELDS (name, logoPath) bound to a truthy value in the
input, a set of that field on the matched team; falsy and absent fields
are skipped. -/
def applyTeamFieldSet (input : TeamUpdateInput) (t : Team) : Team :=
  let t1 :=
    match input.name with
    | some s => if s = "" then t else { t with name := s }
    | none => t
  match input.logoPath with
  | some s => if s = "" then t1 else { t1 with logoPath := some s }
  | none => t1

/-- Embeds statics.updateTeam: findOneAndUpdate keyed by organization id
and team id, setting the allow-listed truthy fields on the matched team;
returns the updated organization, or none when no document matches, in
which case nothing is modified. -/
def updateTeam (db : DB) (id teamId : Nat) (input : TeamUpdateInput) :
    Option Organization × DB :=
  let apply := fun (o : Organization) =>
    { o with teams := updateFirst (fun t => t.id == teamId) (applyTeamFieldSet input) o.teams }
  match db.organizations.find? (orgTeamQuery id teamId) with
  | none => (none, db)
  | some o =>
    (some (apply o),
     { db with organizations := updateFirst (orgTeamQuery id teamId) apply db.organizations })

/-- Embeds statics.deleteTeam: pull the team with the given id out of the
matched organization, then pull the team id out of the teams array of
every membership entry for this organization on every user document that
holds such an entry (updateMany with an array filter). -/
def deleteTeam (db : DB) (id teamId : Nat) : DB :=
  let orgs := updateFirst (orgTeamQuery id teamId)
    (fun o => { o with teams := o.teams.filter (fun t => !(t.id == teamId)) })
    db.organizations
  let users := db.users.map (fun u =>
    if u.organizationMemberships.any (fun m => m.organizationId == id) then
      { u with organizationMemberships := u.organizationMemberships.map (fun m =>
          if m.organizationId == id then
            { m with teamIds := m.teamIds.filter (fun t => !(t == teamId)) }
          else m) }
    else u)
  { organizations := orgs, users := users }

/-- Embeds statics.addUserToTeam: first validate that the organization
exists and carries exactly one team with the given id, then
findOneAndUpdate the user matching both the user id and a membership
entry for the organization, adding the team id to that entry with
addToSet semantics; a missed match on either step raises NotFound. -/
def addUserToTeam (db : DB) (id teamId userId : Nat) : Except ModelError DB :=
  let organization := db.organizations.find? (fun o => o.id == id)
  let organizationTeamFound :=
    match organization with
    | some o => (o.teams.filter (fun t => t.id == teamId)).length == 1
    | none => false
  let applyAdd := fun (u : User) =>
    { u with organizationMemberships := u.organizationMemberships.map (fun m =>
        if m.organizationId == id then { m with teamIds := addToSet teamId m.teamIds }
        else m) }
  if !organizationTeamFound then .error .NotFound
  else
    match db.users.find? (userMembershipQuery id userId) with
    | none => .error .NotFound
    | some _ =>
      .ok { db with users := updateFirst (userMembershipQuery id userId) applyAdd db.users }

/-- Embeds statics.removeUserFromTeam: same validation as addUserToTeam,
then findOneAndUpdate pulling the team id out of the membership entry of
the matched user; pulling an absent id is a successful no-op. -/
def removeUserFromTeam (db : DB) (id teamId userId : Nat) : Except ModelError DB :=
  let organization := db.organizations.find? (fun o => o.id == id)
  let organizationTeamFound :=
    match organization with
    | some o => (o.teams.filter (fun t => t.id == teamId)).length == 1
    | none => false
  let applyPull := fun (u : User) =>
    { u with organizationMemberships := u.organizationMemberships.map (fun m =>
        if m.organizationId == id then { m with teamIds := m.teamIds.filter (fun t => !(t == teamId)) }
        else m) }
  if !organizationTeamFound then .error .NotFound
  else
    match db.users.find? (userMembershipQuery id userId) with
    | none => .error .NotFound
    | some _ =>
      .ok { db with users := updateFirst (userMembershipQuery id userId) applyPull db.users }

/-- Modelled from the spec: the setRole contract of the nested-entity
role-assignment engine, section 4.2, restricted to one ACL. It upserts
one ACE for the subject: when an ACE for that subject already exists its
role is replaced (one role per subject, the most recent setRole wins),
otherwise a new ACE is appended. -/
def setRoleACL (acl : List ACE) (userId : Nat) (role : String) : List ACE :=
  if acl.any (fun a => a.userId == userId) then
    acl.map (fun a => if a.userId == userId then { a with role := role } else a)
  else acl ++ [{ userId := userId, role := role }]

/-- Modelled from the spec: the removeRole contract of section 4.2
restricted to one ACL: removes any ACE for the subject, a no-op when
none is present. -/
def removeRoleACL (acl : List ACE) (userId : Nat) : List ACE :=
  acl.filter (fun a => !(a.userId == userId))

/-- Modelled from the spec: statics.setNestedUserRole of the
role-assignment plugin (its source is not among the provided files; the
team sub-model calls it to grant the creator the team admin role). Per
section 4.2 it upserts one ACE on the ACL of the nested entity addressed
by organization id and nested entity id, as a single conditional update
keyed by both ids, and a write that matched nothing is NotFound. Only
the teams nested field is needed here. -/
def setNestedUserRole (db : DB) (id teamId : Nat) (role : String) (userId : Nat) :
    Except ModelError (Organization × DB) :=
  let grant := fun (t : Team) =>
    { t with accessControlList := setRoleACL t.accessControlList userId role }
  let apply := fun (o : Organization) =>
    { o with teams := updateFirst (fun t => t.id == teamId) grant o.teams }
  match db.organizations.find? (orgTeamQuery id teamId) with
  | none => .error .NotFound
  | some o =>
    .ok (apply o,
      { db with organizations := updateFirst (orgTeamQuery id teamId) apply db.organizations })

/-- Embeds statics.createTeam: the addToSet write carries runValidators
and TeamSchema makes name required, so a missing or empty team name
fails validation before any write (mongoose update validators reject
the payload, and an empty string does not satisfy a required String
path). With a valid name, a fresh id is drawn for the new team (the
newTeamId argument stands for the fresh ObjectId), the team is added to
the organization teams array with addToSet by a findOneAndUpdate keyed
on the organization id alone; a missed match is NotFound; then the
creator is granted the team admin role on the new team through
setNestedUserRole. -/
def createTeam (db : DB) (id : Nat) (team : TeamUpdateInput) (newTeamId creatorId : Nat) :
    Except ModelError (Organization × DB) :=
  match team.name with
  | none => .error .ValidationError
  | some nm =>
    if nm = "" then .error .ValidationError
    else
      let newTeam : Team :=
        { id := newTeamId, name := nm, logoPath := team.logoPath, accessControlList := [] }
      match db.organizations.find? (fun o => o.id == id) with
      | none => .error .NotFound
      | some _ =>
        let addTeam := fun (o : Organization) => { o with teams := addToSet newTeam o.teams }
        let db1 : DB :=
          { db with organizations := updateFirst (fun o => o.id == id) addTeam db.organizations }
        setNestedUserRole db1 id newTeamId "TEAM_ADMIN" creatorId

/-- Modelled from the spec: the effective role set of section 4.5 step 3
for a user with a given membership entry within an organization: roles
of the organization ACEs whose subject is the user, together with the
roles of every ACE on the ACL of each team of the organization listed in
the membership teamIds, contributed into the organization role
namespace. -/
def effectiveRoles (o : Organization) (m : Membership) (userId : Nat) : List String :=
  ((o.accessControlList.filter (fun a => a.userId == userId)).map (fun a => a.role))
  ++ ((o.teams.filter (fun t => m.teamIds.contains t.id)).flatMap
      (fun t => t.accessControlList.map (fun a => a.role)))

/-- Modelled from the spec: statics.isAuthorized, section 4.5 (its source
is not among the provided files; the test suite exercises it). Step 1:
no membership entry for the organization returns false immediately.
Step 2: an undefined required-role set returns true on membership alone.
Steps 3 and 4: otherwise true iff the effective role set meets the
required set; an organization that cannot be read contributes no
roles. -/
def isAuthorized (db : DB) (orgId : Nat) (requiredRoles : Option (List String)) (user : User) :
    Bool :=
  match user.organizationMemberships.find? (fun m => m.organizationId == orgId) with
  | none => false
  | some m =>
    match requiredRoles with
    | none => true
    | some roles =>
      match db.organizations.find? (fun o => o.id == orgId) with
      | none => false
      | some o => (effectiveRoles o m user.id).any (fun r => roles.contains r)

/-- Modelled from the spec: statics.setTeamRole grants an organization
scoped role token to a team (property P4): it upserts an ACE carrying
the role, with the team as subject, on the ACL of that team, through the
nested role-assignment engine; every ACE on a team ACL contributes its
role to the effective set of members of the team (section 4.5 step
3b). -/
def setTeamRole (db : DB) (orgId : Nat) (role : String) (teamId : Nat) :
    Except ModelError (Organization × DB) :=
  setNestedUserRole db orgId teamId role teamId

/-- Modelled from the spec: statics.removeTeamRole undoes setTeamRole:
it removes any ACE whose subject is the team from the ACL of that team;
removal of something already absent, or addressed at a missing entity,
is a successful no-op (section 7, idempotent-success). -/
def removeTeamRole (db : DB) (orgId teamId : Nat) : DB :=
  let revoke := fun (t : Team) =>
    { t with accessControlList := removeRoleACL t.accessControlList teamId }
  let apply := fun (o : Organization) =>
    { o with teams := updateFirst (fun t => t.id == teamId) revoke o.teams }
  { db with organizations := updateFirst (orgTeamQuery orgId teamId) apply db.organizations }

/-- The create input of createOrganization: the one required schema
field; none stands for a missing name. -/
structure OrganizationInput where
  name : Option String
deriving DecidableEq, Repr

/-- Modelled from the spec: the membership-adding step of
addUserToOrganization (section 4.3): idempotently ensure a membership
entry for the organization exists on the user, with an empty team
list. -/
def addOrgMembership (orgId : Nat) (u : User) : User :=
  if u.organizationMemberships.any (fun m => m.organizationId == orgId) then u
  else { u with organizationMemberships :=
          u.organizationMemberships ++ [{ organizationId := orgId, teamIds := [] }] }

/-- Modelled from the spec: statics.createOrganization, section 4.4 (its
source is not among the provided files). It validates the input (a
missing name is a ValidationError), requires the creator user to exist
(the membership step fails NotFound otherwise), persists a new
organization whose ACL is seeded by grantOnCreate with one ACE granting
the creator the top organization role ORG_FULL_ADMIN, and adds the
creator membership. The newId and now arguments stand for the fresh
ObjectId and the timestamp. -/
def createOrganization (db : DB) (attrs : OrganizationInput) (newId creatorId now : Nat) :
    Except ModelError (Organization × DB) :=
  match attrs.name with
  | none => .error .ValidationError
  | some nm =>
    if db.users.any (fun u => u.id == creatorId) then
      let org : Organization :=
        { id := newId, name := nm, createdAt := now, updatedAt := now,
          accessControlList := setRoleACL [] creatorId "ORG_FULL_ADMIN", teams := [] }
      .ok (org,
        { organizations := db.organizations ++ [org],
          users := updateFirst (fun u => u.id == creatorId) (addOrgMembership newId) db.users })
    else .error .NotFound

/-- The update input of updateOrganization: the allow-listed simple
field name together with the identifier and timestamp fields a caller
may try to smuggle into the write. -/
structure OrganizationUpdateInput where
  name : Option String
  forgedId : Option Nat
  forgedCreatedAt : Option Nat
  forgedUpdatedAt : Option Nat
deriving DecidableEq, Repr

/-- Modelled from the spec: statics.updateOrganization, section 4.4 (its
source is not among the provided files). Writable fields are restricted
to the allow-list, which holds the simple field name; identifier and
timestamp fields of the input are ignored, never applied; the store
refreshes updatedAt on the write (the now argument); an unknown id
returns null and modifies nothing. -/
def updateOrganization (db : DB) (id : Nat) (input : OrganizationUpdateInput) (now : Nat) :
    Option Organization × DB :=
  let apply := fun (o : Organization) =>
    { o with
      name := match input.name with | some s => s | none => o.name,
      updatedAt := now }
  match db.organizations.find? (fun o => o.id == id) with
  | none => (none, db)
  | some o =>
    (some (apply o),
     { db with organizations := updateFirst (fun o => o.id == id) apply db.organizations })

/-- A findOneAndUpdate whose query matches nothing modifies nothing. -/
theorem updateFirst_of_find_none (p : α → Bool) (f : α → α) (l : List α)
    (h : l.find? p = none) : updateFirst p f l = l := by
  induction l with
  | nil => rfl
  | cons x xs ih =>
    rcases hx : p x with _ | _
    · simp only [updateFirst, hx, Bool.false_eq_true, if_false, List.cons.injEq, true_and]
      exact ih (by simpa [List.find?_cons, hx] using h)
    · simp [List.find?_cons, hx] at h

/-- The rewritten image of the first match is a member of the updated
list. -/
theorem mem_updateFirst (p : α → Bool) (f : α → α) {x : α} {l : List α}
    (h : l.find? p = some x) : f x ∈ updateFirst p f l := by
  induction l with
  | nil => simp at h
  | cons y ys ih =>
    rcases hy : p y with _ | _
    · simp only [List.find?_cons, hy] at h
      simp only [updateFirst, hy, Bool.false_eq_true, if_false]
      exact List.mem_cons_of_mem _ (ih h)
    · simp only [List.find?_cons, hy] at h
      cases h
      simp [updateFirst, hy]

/-- A findOneAndUpdate whose rewrite fixes the matched document leaves
the list unchanged. -/
theorem updateFirst_fix (p : α → Bool) (f : α → α) {x : α} {l : List α}
    (h : l.find? p = some x) (hfx : f x = x) : updateFirst p f l = l := by
  induction l with
  | nil => simp at h
  | cons y ys ih =>
    rcases hy : p y with _ | _
    · simp only [List.find?_cons, hy] at h
      simp only [updateFirst, hy, Bool.false_eq_true, if_false, List.cons.injEq, true_and]
      exact ih h
    · simp only [List.find?_cons, hy] at h
      cases h
      simp [updateFirst, hy, hfx]

/-- When the rewrite preserves the query, the first match of the updated
list is the rewritten first match of the original. -/
theorem find_updateFirst_same (p : α → Bool) (f : α → α) {x : α} {l : List α}
    (h : l.find? p = some x) (hfx : p (f x) = true) :
    (updateFirst p f l).find? p = some (f x) := by
  induction l with
  | nil => simp at h
  | cons y ys ih =>
    rcases hy : p y with _ | _
    · simp only [List.find?_cons, hy] at h
      simp only [updateFirst, hy, Bool.false_eq_true, if_false, List.find?_cons]
      exact ih h
    · simp only [List.find?_cons, hy] at h
      cases h
      simp [updateFirst, hy, List.find?_cons, hfx]

/-- Reading back the updated document under a second query: when the
first matches of query and read coincide and the query entails the
read predicate, the read on the updated list yields the rewritten
document. -/
theorem find_updateFirst_of_entails (q r : α → Bool) (f : α → α) {x : α} {l : List α}
    (hq : l.find? q = some x) (hr : l.find? r = some x)
    (himp : ∀ y, q y = true → r y = true) (hfx : r (f x) = true) :
    (updateFirst q f l).find? r = some (f x) := by
  induction l with
  | nil => simp at hq
  | cons y ys ih =>
    rcases hy : q y with _ | _
    · simp only [List.find?_cons, hy] at hq
      rcases hry : r y with _ | _
      · simp only [List.find?_cons, hry] at hr
        simp only [updateFirst, hy, Bool.false_eq_true, if_false, List.find?_cons, hry]
        exact ih hq hr
      · simp only [List.find?_cons, hry] at hr
        cases hr
        have : q x = true := List.find?_some hq
        simp [this] at hy
    · simp only [List.find?_cons, hy] at hq
      cases hq
      have hrx : r x = true := himp x hy
      simp only [List.find?_cons, hrx] at hr
      cases hr
      simp [updateFirst, hy, List.find?_cons, hfx]

/-- Every member of the updated list is a member of the original list or
the rewritten image of an original member matched by the query. -/
theorem mem_updateFirst_cases (p : α → Bool) (f : α → α) {y : α} {l : List α}
    (h : y ∈ updateFirst p f l) : y ∈ l ∨ ∃ x, x ∈ l ∧ p x = true ∧ y = f x := by
  induction l with
  | nil => simp [updateFirst] at h
  | cons z zs ih =>
    rcases hz : p z with _ | _
    · simp only [updateFirst, hz, Bool.false_eq_true, if_false, List.mem_cons] at h
      rcases h with h | h
      · exact Or.inl (by simp [h])
      · rcases ih h with h2 | ⟨x, hx1, hx2, hx3⟩
        · exact Or.inl (List.mem_cons_of_mem _ h2)
        · exact Or.inr ⟨x, List.mem_cons_of_mem _ hx1, hx2, hx3⟩
    · simp only [updateFirst, hz, if_true, List.mem_cons] at h
      rcases h with h | h
      · exact Or.inr ⟨z, List.mem_cons_self z zs, hz, h⟩
      · exact Or.inl (List.mem_cons_of_mem _ h)

/-- Two successive findOneAndUpdate writes under the same query, the
rewrite of the first preserving the query, compose into one rewrite of
the first match. -/
theorem updateFirst_updateFirst (p : α → Bool) (f g : α → α) (l : List α)
    (hpf : ∀ x, p (f x) = p x) :
    updateFirst p g (updateFirst p f l) = updateFirst p (fun x => g (f x)) l := by
  induction l with
  | nil => rfl
  | cons y ys ih =>
    rcases hy : p y with _ | _
    · simp only [updateFirst, hy, Bool.false_eq_true, if_false, List.cons.injEq, true_and]
      exact ih
    · simp [updateFirst, hy, hpf y]

/-- A find? over a list whose prefix fails the predicate and whose next
element satisfies it yields that element. -/
theorem find_append_cons (p : α → Bool) {x : α} (l1 l2 : List α)
    (h1 : ∀ y ∈ l1, p y = false) (hx : p x = true) :
    (l1 ++ x :: l2).find? p = some x := by
  induction l1 with
  | nil => simp [List.find?_cons, hx]
  | cons z zs ih =>
    have hz : p z = false := h1 z (List.mem_cons_self z zs)
    simp only [List.cons_append, List.find?_cons, hz]
    exact ih (fun y hy => h1 y (List.mem_cons_of_mem _ hy))

/-- A successful find? splits the list at the found element, everything
before it failing the predicate. -/
theorem find_decomp (p : α → Bool) {x : α} {l : List α}
    (h : l.find? p = some x) :
    ∃ l1 l2, l = l1 ++ x :: l2 ∧ ∀ y ∈ l1, p y = false := by
  induction l with
  | nil => simp at h
  | cons y ys ih =>
    rcases hy : p y with _ | _
    · simp only [List.find?_cons, hy] at h
      obtain ⟨l1, l2, heq, hfail⟩ := ih h
      refine ⟨y :: l1, l2, by simp [heq], ?_⟩
      intro z hz
      rcases List.mem_cons.mp hz with rfl | hz2
      · exact hy
      · exact hfail z hz2
    · simp only [List.find?_cons, hy] at h
      cases h
      exact ⟨[], ys, rfl, by simp⟩

/-- updateFirst over a list split at its first match rewrites exactly
that element. -/
theorem updateFirst_append_cons (p : α → Bool) (f : α → α) {x : α} (l1 l2 : List α)
    (h1 : ∀ y ∈ l1, p y = false) (hx : p x = true) :
    updateFirst p f (l1 ++ x :: l2) = l1 ++ f x :: l2 := by
  induction l1 with
  | nil => simp [updateFirst, hx]
  | cons z zs ih =>
    have hz : p z = false := h1 z (List.mem_cons_self z zs)
    simp only [List.cons_append, updateFirst, hz, Bool.false_eq_true, if_false,
      List.cons.injEq, true_and]
    exact ih (fun y hy => h1 y (List.mem_cons_of_mem _ hy))

/-- The upsert of setRoleACL leaves an ACE carrying the upserted subject
and role in the ACL. -/
theorem setRoleACL_exists (acl : List ACE) (s : Nat) (role : String) :
    ∃ a ∈ setRoleACL acl s role, a.userId = s ∧ a.role = role := by
  unfold setRoleACL
  rcases hany : acl.any (fun a => a.userId == s) with _ | _
  · simp only [Bool.false_eq_true, if_false]
    exact ⟨{ userId := s, role := role }, by simp, rfl, rfl⟩
  · simp only [if_true]
    obtain ⟨a0, ha0, hs⟩ := List.any_eq_true.mp hany
    refine ⟨{ a0 with role := role }, ?_, by simpa using hs, rfl⟩
    have : (fun a => if a.userId == s then { a with role := role } else a) a0 =
        { a0 with role := role } := by simp [hs]
    exact this ▸ List.mem_map_of_mem _ ha0

/-- Filtering a mapped list equals filtering the original when the map
preserves the predicate and fixes every element the filter keeps. -/
theorem filter_map_of_preserve (p : α → Bool) (f : α → α)
    (hpf : ∀ x, p (f x) = p x) (hid : ∀ x, p x = true → f x = x) (l : List α) :
    (l.map f).filter p = l.filter p := by
  induction l with
  | nil => rfl
  | cons a as ih =>
    rcases ha : p a with _ | _
    · simp [List.filter_cons, hpf a, ha, ih]
    · simp [List.filter_cons, hpf a, ha, hid a ha, ih]

/-- Removing the subject after upserting it restores the ACL to what
plain removal of the subject yields: the upsert is invisible once the
subject is revoked. -/
theorem removeRoleACL_setRoleACL (acl : List ACE) (s : Nat) (role : String) :
    removeRoleACL (setRoleACL acl s role) s = removeRoleACL acl s := by
  unfold removeRoleACL setRoleACL
  rcases hany : acl.any (fun a => a.userId == s) with _ | _
  · simp [List.filter_append]
  · simp only [if_true]
    apply filter_map_of_preserve
    · intro a
      rcases ha : a.userId == s with _ | _ <;> simp [ha]
    · intro a ha
      rcases ha2 : a.userId == s with _ | _
      · simp [ha2]
      · simp [ha2] at ha

/-- C1: for every organization and user, if the user holds no membership
entry for the organization id, isAuthorized returns false for every
value of requiredRoles, including undefined. -/
theorem isAuthorized_nonmember_false (db : DB) (orgId : Nat) (user : User)
    (requiredRoles : Option (List String))
    (h : ∀ m ∈ user.organizationMemberships, m.organizationId ≠ orgId) :
    isAuthorized db orgId requiredRoles user = false := by
  have hfind : user.organizationMemberships.find? (fun m => m.organizationId == orgId) = none := by
    rw [List.find?_eq_none]
    intro m hm
    simpa using h m hm
  simp [isAuthorized, hfind]

/-- Witness for C1: a user holding a membership for organization 2 only
is denied on organization 5, with and without a required-role set. -/
theorem isAuthorized_nonmember_false_witness :
    isAuthorized ⟨[], []⟩ 5 (some ["ORG_ADMIN"]) ⟨1, [⟨2, []⟩]⟩ = false :=
  isAuthorized_nonmember_false ⟨[], []⟩ 5 ⟨1, [⟨2, []⟩]⟩ (some ["ORG_ADMIN"]) (by decide)

/-- C2: every successful createOrganization returns an organization
whose accessControlList is exactly one entry granting the creator the
role ORG_FULL_ADMIN. -/
theorem createOrganization_acl (db : DB) (attrs : OrganizationInput)
    (newId creatorId now : Nat) (org : Organization) (db1 : DB)
    (h : createOrganization db attrs newId creatorId now = Except.ok (org, db1)) :
    org.accessControlList = [{ userId := creatorId, role := "ORG_FULL_ADMIN" }] := by
  unfold createOrganization at h
  rcases attrs with ⟨_ | nm⟩
  · simp at h
  · simp only at h
    rcases hc : db.users.any (fun u => u.id == creatorId) with _ | _
    · rw [hc] at h
      simp at h
    · rw [hc] at h
      simp only [if_true, Except.ok.injEq, Prod.mk.injEq] at h
      obtain ⟨h1, _⟩ := h
      rw [← h1]
      simp [setRoleACL]

/-- Witness for C2: creating organization 5 for the existing creator 7
seeds exactly the one founding ACE. -/
theorem createOrganization_acl_witness :
    Organization.accessControlList
      ⟨5, "org1", 10, 10, [⟨7, "ORG_FULL_ADMIN"⟩], []⟩ = [⟨7, "ORG_FULL_ADMIN"⟩] :=
  createOrganization_acl ⟨[], [⟨7, []⟩]⟩ ⟨some "org1"⟩ 5 7 10
    ⟨5, "org1", 10, 10, [⟨7, "ORG_FULL_ADMIN"⟩], []⟩
    ⟨[⟨5, "org1", 10, 10, [⟨7, "ORG_FULL_ADMIN"⟩], []⟩], [⟨7, [⟨5, []⟩]⟩]⟩ rfl

/-- C8: updateOrganization applies only the allow-listed simple field
name; the id and createdAt of the document keep their original values
whatever identifier or timestamp fields the input carries, the write
succeeds rather than being rejected, and the store refreshes
updatedAt. -/
theorem updateOrganization_allowlist (db : DB) (id : Nat)
    (input : OrganizationUpdateInput) (now : Nat) (o : Organization)
    (hfind : db.organizations.find? (fun o2 => o2.id == id) = some o) :
    ∃ o1 db1, updateOrganization db id input now = (some o1, db1) ∧
      o1.id = o.id ∧ o1.createdAt = o.createdAt ∧
      o1.name = input.name.getD o.name ∧
      o1.accessControlList = o.accessControlList ∧ o1.teams = o.teams ∧
      o1.updatedAt = now := by
  unfold updateOrganization
  rw [hfind]
  refine ⟨_, _, rfl, rfl, rfl, ?_, rfl, rfl, rfl⟩
  rcases input with ⟨_ | nm, fi, fc, fu⟩ <;> simp

/-- Witness for C8: an update smuggling a forged id and forged
timestamps onto organization 1 changes only the name and refreshes
updatedAt. -/
theorem updateOrganization_allowlist_witness :
    ∃ o1 db1,
      updateOrganization ⟨[⟨1, "org1", 0, 0, [], []⟩], []⟩ 1
        ⟨some "newOrg", some 42, some 42, some 42⟩ 9 = (some o1, db1) ∧
      o1.id = 1 ∧ o1.createdAt = 0 ∧
      o1.name = (Option.some "newOrg").getD "org1" ∧
      o1.accessControlList = [] ∧ o1.teams = ([] : List Team) ∧
      o1.updatedAt = 9 := by
  have h := updateOrganization_allowlist ⟨[⟨1, "org1", 0, 0, [], []⟩], []⟩ 1
    ⟨some "newOrg", some 42, some 42, some 42⟩ 9 ⟨1, "org1", 0, 0, [], []⟩ (by decide)
  exact h

/-- C10: when no organization with the given id carrying a team with the
given team id exists, updateTeam returns null rather than an error and
modifies nothing. -/
theorem updateTeam_missing_returns_null (db : DB) (id teamId : Nat)
    (input : TeamUpdateInput)
    (h : ∀ o ∈ db.organizations, o.id = id → ∀ t ∈ o.teams, t.id ≠ teamId) :
    updateTeam db id teamId input = (none, db) := by
  have hfind : db.organizations.find? (orgTeamQuery id teamId) = none := by
    rw [List.find?_eq_none]
    intro o ho
    simp only [orgTeamQuery, Bool.and_eq_true, beq_iff_eq, List.any_eq_true]
    rintro ⟨hid, t, ht, htid⟩
    exact h o ho hid t ht (by simpa using htid)
  simp [updateTeam, hfind]

/-- Witness for C10: updating team 9, absent from the only organization,
returns null and leaves the datastore untouched. -/
theorem updateTeam_missing_returns_null_witness :
    updateTeam ⟨[⟨1, "org", 0, 0, [], [⟨3, "team", none, []⟩]⟩], []⟩ 1 9
      ⟨some "x", none⟩ =
    (none, ⟨[⟨1, "org", 0, 0, [], [⟨3, "team", none, []⟩]⟩], []⟩) :=
  updateTeam_missing_returns_null ⟨[⟨1, "org", 0, 0, [], [⟨3, "team", none, []⟩]⟩], []⟩ 1 9
    ⟨some "x", none⟩ (by decide)

/-- Reading the updated document under a read predicate that entails
the write query: the read on the updated list yields the rewritten first
query match whenever it satisfies the read predicate, even when the
original document did not. -/
theorem find_updateFirst_entering (q r : α → Bool) (f : α → α) {x : α} {l : List α}
    (hq : l.find? q = some x) (himp : ∀ y, r y = true → q y = true)
    (hfx : r (f x) = true) :
    (updateFirst q f l).find? r = some (f x) := by
  obtain ⟨l1, l2, heq, hfail⟩ := find_decomp q hq
  subst heq
  rw [updateFirst_append_cons q f l1 l2 hfail (List.find?_some hq)]
  apply find_append_cons _ _ _ _ hfx
  intro y hy
  rcases hr : r y with _ | _
  · rfl
  · exact absurd (himp y hr) (by simp [hfail y hy])

/-- The updateTeam field set characterized field by field: name and
logoPath take the input value exactly when it is truthy and keep the
stored value otherwise; the id and the ACL are untouched. -/
theorem applyTeamFieldSet_spec (input : TeamUpdateInput) (t : Team) :
    applyTeamFieldSet input t =
      { t with
        name := match input.name with
          | some s => if s = "" then t.name else s
          | none => t.name,
        logoPath := match input.logoPath with
          | some s => if s = "" then t.logoPath else some s
          | none => t.logoPath } := by
  rcases input with ⟨_ | nm, _ | lp⟩
  · rfl
  · simp only [applyTeamFieldSet]
    split <;> rfl
  · simp only [applyTeamFieldSet]
    split <;> rfl
  · simp only [applyTeamFieldSet]
    split <;> split <;> rfl

/-- C9: updateTeam applies only the allow-listed fields name and
logoPath, and among those only the ones bound to truthy values: a falsy
field keeps its stored value; the team id and ACL and the remaining
organization fields are unchanged. -/
theorem updateTeam_truthy_allowlist (db : DB) (id teamId : Nat) (input : TeamUpdateInput)
    (o : Organization) (t0 : Team)
    (hfind : db.organizations.find? (orgTeamQuery id teamId) = some o)
    (hteam : o.teams.find? (fun t => t.id == teamId) = some t0) :
    ∃ o1 db1 t1, updateTeam db id teamId input = (some o1, db1) ∧
      o1.teams.find? (fun t => t.id == teamId) = some t1 ∧
      t1.id = t0.id ∧ t1.accessControlList = t0.accessControlList ∧
      t1.name = (match input.name with
        | some s => if s = "" then t0.name else s
        | none => t0.name) ∧
      t1.logoPath = (match input.logoPath with
        | some s => if s = "" then t0.logoPath else some s
        | none => t0.logoPath) ∧
      o1.id = o.id ∧ o1.name = o.name ∧ o1.createdAt = o.createdAt ∧
      o1.accessControlList = o.accessControlList := by
  have ht0 : (t0.id == teamId) = true := by simpa using List.find?_some hteam
  have hpres : ((applyTeamFieldSet input t0).id == teamId) = true := by
    rw [applyTeamFieldSet_spec]
    simpa using ht0
  have hfindres := find_updateFirst_same (fun t => t.id == teamId)
    (applyTeamFieldSet input) hteam (by simpa using hpres)
  refine ⟨{ o with teams := updateFirst (fun t => t.id == teamId) (applyTeamFieldSet input) o.teams },
    { db with organizations := updateFirst (orgTeamQuery id teamId) (fun o2 => { o2 with teams := updateFirst (fun t => t.id == teamId) (applyTeamFieldSet input) o2.teams }) db.organizations },
    applyTeamFieldSet input t0, ?_, hfindres, ?_, ?_, ?_, ?_, rfl, rfl, rfl, rfl⟩
  · unfold updateTeam
    rw [hfind]
  · rw [applyTeamFieldSet_spec]
  · rw [applyTeamFieldSet_spec]
  · rw [applyTeamFieldSet_spec]
  · rw [applyTeamFieldSet_spec]

/-- Witness for C9: updating team 3 with a truthy name and a falsy
(empty string) logoPath applies the name only; id, ACL and the stored
logoPath survive. -/
theorem updateTeam_truthy_allowlist_witness :
    ∃ o1 db1 t1,
      updateTeam ⟨[⟨1, "org", 0, 0, [], [⟨3, "team", some "logo", [⟨7, "TEAM_ADMIN"⟩]⟩]⟩], []⟩
        1 3 ⟨some "n2", some ""⟩ = (some o1, db1) ∧
      o1.teams.find? (fun t => t.id == 3) = some t1 ∧
      t1.id = 3 ∧ t1.accessControlList = [⟨7, "TEAM_ADMIN"⟩] ∧
      t1.name = "n2" ∧ t1.logoPath = some "logo" ∧
      o1.id = 1 ∧ o1.name = "org" ∧ o1.createdAt = 0 ∧
      o1.accessControlList = [] := by
  obtain ⟨o1, db1, t1, h⟩ := updateTeam_truthy_allowlist
    ⟨[⟨1, "org", 0, 0, [], [⟨3, "team", some "logo", [⟨7, "TEAM_ADMIN"⟩]⟩]⟩], []⟩ 1 3
    ⟨some "n2", some ""⟩ ⟨1, "org", 0, 0, [], [⟨3, "team", some "logo", [⟨7, "TEAM_ADMIN"⟩]⟩]⟩
    ⟨3, "team", some "logo", [⟨7, "TEAM_ADMIN"⟩]⟩ (by decide) (by decide)
  exact ⟨o1, db1, t1, by simpa using h⟩

/-- C5: createTeam validates the required team name first (a missing or
empty name is a ValidationError, per the runValidators flag on the
write and the required name path of TeamSchema); with a valid name it
fails NotFound when the organization does not exist, and otherwise
seeds the ACL of the new team with exactly one ACE granting the creator
the team-scope admin role TEAM_ADMIN, not an organization-level
role. -/
theorem createTeam_grant_on_create (db : DB) (id : Nat) (team : TeamUpdateInput)
    (newTeamId creatorId : Nat) :
    ((team.name = none ∨ team.name = some "") →
      createTeam db id team newTeamId creatorId = Except.error ModelError.ValidationError) ∧
    (∀ nm, team.name = some nm → nm ≠ "" →
      db.organizations.find? (fun o => o.id == id) = none →
      createTeam db id team newTeamId creatorId = Except.error ModelError.NotFound) ∧
    (∀ nm, team.name = some nm → nm ≠ "" →
      ∀ o, db.organizations.find? (fun o2 => o2.id == id) = some o →
      (∀ t ∈ o.teams, t.id ≠ newTeamId) →
      ∃ o1 db1, createTeam db id team newTeamId creatorId = Except.ok (o1, db1) ∧
        o1.teams.find? (fun t => t.id == newTeamId) =
          some ⟨newTeamId, nm, team.logoPath,
            [⟨creatorId, "TEAM_ADMIN"⟩]⟩) := by
  refine ⟨?_, ?_, ?_⟩
  · rintro (hn | hn)
    · unfold createTeam
      rw [hn]
    · unfold createTeam
      rw [hn]
      rfl
  · intro nm hname hnm hnone
    unfold createTeam
    rw [hname]
    dsimp only
    rw [if_neg hnm]
    rw [hnone]
  · intro nm hname hnm o hfind hfresh
    set newTeam : Team :=
      { id := newTeamId, name := nm, logoPath := team.logoPath,
        accessControlList := [] } with hNewTeam
    have hnotmem : newTeam ∉ o.teams := by
      intro hmem
      exact hfresh newTeam hmem rfl
    have haddset : addToSet newTeam o.teams = o.teams ++ [newTeam] := by
      simp [addToSet, hnotmem]
    have hid : (o.id == id) = true := by simpa using List.find?_some hfind
    have hfound2 : (updateFirst (fun o2 => o2.id == id)
        (fun o2 => { o2 with teams := addToSet newTeam o2.teams })
        db.organizations).find? (orgTeamQuery id newTeamId) =
        some { o with teams := addToSet newTeam o.teams } := by
      apply find_updateFirst_entering _ _ _ hfind
      · intro y hy
        unfold orgTeamQuery at hy
        exact ((Bool.and_eq_true _ _).mp hy).1
      · simp only [orgTeamQuery, haddset]
        simp [hid]
    have hteamfind : (addToSet newTeam o.teams).find? (fun t => t.id == newTeamId) =
        some newTeam := by
      rw [haddset]
      apply find_append_cons
      · intro t ht
        simpa using hfresh t ht
      · simp
    have hres := find_updateFirst_same (fun t => t.id == newTeamId)
      (fun (t : Team) => { t with accessControlList := setRoleACL t.accessControlList creatorId "TEAM_ADMIN" })
      hteamfind (by simp)
    refine ⟨{ o with teams := updateFirst (fun t => t.id == newTeamId) (fun (t : Team) => { t with accessControlList := setRoleACL t.accessControlList creatorId "TEAM_ADMIN" }) (addToSet newTeam o.teams) },
      { organizations := updateFirst (orgTeamQuery id newTeamId) (fun (o2 : Organization) => { o2 with teams := updateFirst (fun t => t.id == newTeamId) (fun (t : Team) => { t with accessControlList := setRoleACL t.accessControlList creatorId "TEAM_ADMIN" }) o2.teams }) (updateFirst (fun o2 => o2.id == id) (fun (o2 : Organization) => { o2 with teams := addToSet newTeam o2.teams }) db.organizations),
        users := db.users }, ?_, ?_⟩
    · unfold createTeam
      rw [hname]
      dsimp only
      rw [if_neg hnm]
      rw [hfind]
      unfold setNestedUserRole
      dsimp only
      rw [hfound2]
    · simpa [setRoleACL] using hres

/-- Witness for C5: a team input with no name is rejected with
ValidationError, creating a team on the missing organization 9 is
NotFound, and creating team 5 on organization 1 seeds exactly the one
TEAM_ADMIN ACE for creator 7. -/
theorem createTeam_grant_on_create_witness :
    createTeam ⟨[⟨1, "org", 0, 0, [], []⟩], []⟩ 1 ⟨none, none⟩ 5 7 =
      Except.error ModelError.ValidationError ∧
    createTeam ⟨[⟨1, "org", 0, 0, [], []⟩], []⟩ 9 ⟨some "t", none⟩ 5 7 =
      Except.error ModelError.NotFound ∧
    ∃ o1 db1,
      createTeam ⟨[⟨1, "org", 0, 0, [], []⟩], []⟩ 1 ⟨some "t", none⟩ 5 7 =
        Except.ok (o1, db1) ∧
      o1.teams.find? (fun t => t.id == 5) =
        some ⟨5, "t", none, [⟨7, "TEAM_ADMIN"⟩]⟩ := by
  refine ⟨?_, ?_, ?_⟩
  · exact (createTeam_grant_on_create ⟨[⟨1, "org", 0, 0, [], []⟩], []⟩ 1
      ⟨none, none⟩ 5 7).1 (Or.inl rfl)
  · exact (createTeam_grant_on_create ⟨[⟨1, "org", 0, 0, [], []⟩], []⟩ 9
      ⟨some "t", none⟩ 5 7).2.1 "t" rfl (by decide) (by decide)
  · exact (createTeam_grant_on_create ⟨[⟨1, "org", 0, 0, [], []⟩], []⟩ 1
      ⟨some "t", none⟩ 5 7).2.2 "t" rfl (by decide) ⟨1, "org", 0, 0, [], []⟩
      (by decide) (by decide)

/-- C7: removeUserFromTeam never errors when the team exists under the
organization and the user is an organization member: it succeeds, and
when the team id is not in the teamIds of the membership of the user it
is a no-op leaving the datastore unchanged. -/
theorem removeUserFromTeam_idempotent (db : DB) (id teamId userId : Nat)
    (o : Organization) (u0 : User)
    (horg : db.organizations.find? (fun o2 => o2.id == id) = some o)
    (hteam : (o.teams.filter (fun t => t.id == teamId)).length = 1)
    (huser : db.users.find? (userMembershipQuery id userId) = some u0) :
    ∃ db2, removeUserFromTeam db id teamId userId = Except.ok db2 ∧
      ((∀ m ∈ u0.organizationMemberships, m.organizationId = id → teamId ∉ m.teamIds) →
        db2 = db) := by
  have hstep : removeUserFromTeam db id teamId userId =
      Except.ok { db with users := updateFirst (userMembershipQuery id userId) (fun u => { u with organizationMemberships := u.organizationMemberships.map (fun m => if m.organizationId == id then { m with teamIds := m.teamIds.filter (fun t => !(t == teamId)) } else m) }) db.users } := by
    unfold removeUserFromTeam
    rw [horg]
    simp only [hteam, beq_self_eq_true, Bool.not_true, Bool.false_eq_true, if_false]
    rw [huser]
  refine ⟨_, hstep, ?_⟩
  intro habsent
  have hcong : ∀ m ∈ u0.organizationMemberships,
      (if m.organizationId == id
       then { m with teamIds := m.teamIds.filter (fun t => !(t == teamId)) }
       else m) = m := by
    intro m hm
    rcases hid : m.organizationId == id with _ | _
    · simp [hid]
    · simp only [hid, if_true]
      have hnotin : teamId ∉ m.teamIds := habsent m hm (by simpa using hid)
      have hflt : m.teamIds.filter (fun t => !(t == teamId)) = m.teamIds := by
        apply List.filter_eq_self.mpr
        intro a ha
        have hne : a ≠ teamId := fun heq => hnotin (heq ▸ ha)
        simp [hne]
      rw [hflt]
  have hmap := List.map_congr_left hcong
  have hfix : ({ u0 with organizationMemberships := u0.organizationMemberships.map (fun m => if m.organizationId == id then { m with teamIds := m.teamIds.filter (fun t => !(t == teamId)) } else m) } : User) = u0 := by
    rw [hmap]
    simp
  rw [updateFirst_fix (userMembershipQuery id userId)
    (fun (u : User) => { u with organizationMemberships := u.organizationMemberships.map (fun m => if m.organizationId == id then { m with teamIds := m.teamIds.filter (fun t => !(t == teamId)) } else m) })
    huser hfix]

/-- Witness for C7: removing team 3 from member 7, whose membership does
not list team 3, succeeds and changes nothing. -/
theorem removeUserFromTeam_idempotent_witness :
    ∃ db2,
      removeUserFromTeam ⟨[⟨1, "org", 0, 0, [], [⟨3, "t", none, []⟩]⟩], [⟨7, [⟨1, []⟩]⟩]⟩
        1 3 7 = Except.ok db2 ∧
      db2 = ⟨[⟨1, "org", 0, 0, [], [⟨3, "t", none, []⟩]⟩], [⟨7, [⟨1, []⟩]⟩]⟩ := by
  obtain ⟨db2, h1, h2⟩ := removeUserFromTeam_idempotent
    ⟨[⟨1, "org", 0, 0, [], [⟨3, "t", none, []⟩]⟩], [⟨7, [⟨1, []⟩]⟩]⟩ 1 3 7
    ⟨1, "org", 0, 0, [], [⟨3, "t", none, []⟩]⟩ ⟨7, [⟨1, []⟩]⟩
    (by decide) (by decide) (by decide)
  exact ⟨db2, h1, h2 (by decide)⟩

/-- C4: deleteTeam removes the team from the teams collection of its
organization and removes the team id from the teamIds of every
membership entry for that organization on every user document, while
the membership entries themselves stay in place: the users collection is
rewritten pointwise, each membership keeping its organization id and
memberships of other organizations keeping their teamIds untouched. -/
theorem deleteTeam_cascade (db : DB) (oId tId : Nat)
    (hnodup : (db.organizations.map (fun o => o.id)).Nodup) :
    (∀ o2 ∈ (deleteTeam db oId tId).organizations, o2.id = oId →
      ∀ t ∈ o2.teams, t.id ≠ tId) ∧
    (∀ u2 ∈ (deleteTeam db oId tId).users, ∀ m ∈ u2.organizationMemberships,
      m.organizationId = oId → tId ∉ m.teamIds) ∧
    ((deleteTeam db oId tId).users = db.users.map (fun u => { u with organizationMemberships := u.organizationMemberships.map (fun m => if m.organizationId == oId then { m with teamIds := m.teamIds.filter (fun t => !(t == tId)) } else m) })) := by
  have horgs : (deleteTeam db oId tId).organizations =
      updateFirst (orgTeamQuery oId tId) (fun o => { o with teams := o.teams.filter (fun t => !(t.id == tId)) }) db.organizations := rfl
  have husers : (deleteTeam db oId tId).users =
      db.users.map (fun u => if u.organizationMemberships.any (fun m => m.organizationId == oId) then { u with organizationMemberships := u.organizationMemberships.map (fun m => if m.organizationId == oId then { m with teamIds := m.teamIds.filter (fun t => !(t == tId)) } else m) } else u) := rfl
  refine ⟨?_, ?_, ?_⟩
  · intro o2 ho2 hid t ht heq
    rw [horgs] at ho2
    rcases mem_updateFirst_cases _ _ ho2 with hin | ⟨x, hx, hqx, rfl⟩
    · have hq : orgTeamQuery oId tId o2 = true := by
        simp only [orgTeamQuery, Bool.and_eq_true, beq_iff_eq, List.any_eq_true]
        exact ⟨hid, t, ht, by simp [heq]⟩
      have hsome : (db.organizations.find? (orgTeamQuery oId tId)).isSome :=
        List.find?_isSome.mpr ⟨o2, hin, hq⟩
      obtain ⟨o0, hfq⟩ := Option.isSome_iff_exists.mp hsome
      have ho0mem : o0 ∈ db.organizations := List.mem_of_find?_eq_some hfq
      have hq0 : orgTeamQuery oId tId o0 = true := List.find?_some hfq
      have hid0 : o0.id = oId := by
        have h2 := (Bool.and_eq_true _ _).mp hq0 |>.1
        simpa using h2
      have heqo : o2 = o0 :=
        List.inj_on_of_nodup_map hnodup hin ho0mem (by rw [hid, hid0])
      obtain ⟨l1, l2, hdec, hfail⟩ := find_decomp _ hfq
      have hupd : updateFirst (orgTeamQuery oId tId)
          (fun o => { o with teams := o.teams.filter (fun t => !(t.id == tId)) })
          db.organizations = l1 ++ { o0 with teams := o0.teams.filter (fun t => !(t.id == tId)) } :: l2 := by
        rw [hdec]
        exact updateFirst_append_cons _ _ _ _ hfail hq0
      have hnodup2 : ((l1 ++ o0 :: l2).map (fun o => o.id)).Nodup := by
        rw [← hdec]
        exact hnodup
      have hnotid : o0.id ∉ (l1.map (fun o => o.id)) ∧ o0.id ∉ (l2.map (fun o => o.id)) := by
        rw [List.map_append, List.map_cons] at hnodup2
        have hmid := List.nodup_middle.mp hnodup2
        rcases List.nodup_cons.mp hmid with ⟨hni, _⟩
        rw [List.mem_append] at hni
        exact ⟨fun hc => hni (Or.inl hc), fun hc => hni (Or.inr hc)⟩
      have ho2in : o2 ∈ l1 ++ { o0 with teams := o0.teams.filter (fun t => !(t.id == tId)) } :: l2 := by
        rw [← hupd]
        exact ho2
      rw [List.mem_append, List.mem_cons] at ho2in
      rcases ho2in with h1 | h2 | h3
      · exact hnotid.1 (heqo ▸ List.mem_map_of_mem (fun o => o.id) h1)
      · have htf : t ∈ o0.teams.filter (fun t => !(t.id == tId)) := by
          rw [h2] at ht
          exact ht
        exact absurd heq (by simpa using (List.mem_filter.mp htf).2)
      · exact hnotid.2 (heqo ▸ List.mem_map_of_mem (fun o => o.id) h3)
    · have htf : t ∈ x.teams.filter (fun t => !(t.id == tId)) := ht
      exact absurd heq (by simpa using (List.mem_filter.mp htf).2)
  · intro u2 hu2 m hm hmid
    rw [husers] at hu2
    simp only [List.mem_map] at hu2
    obtain ⟨u, hu, hgu⟩ := hu2
    rcases hany : u.organizationMemberships.any (fun m => m.organizationId == oId) with _ | _
    · rw [hany] at hgu
      simp only [Bool.false_eq_true, if_false] at hgu
      subst hgu
      have hmm : (m.organizationId == oId) = true := by simp [hmid]
      have hcontra : u.organizationMemberships.any (fun m => m.organizationId == oId) = true :=
        List.any_eq_true.mpr ⟨m, hm, hmm⟩
      rw [hany] at hcontra
      exact (Bool.false_ne_true hcontra).elim
    · rw [hany] at hgu
      simp only [if_true] at hgu
      subst hgu
      simp only [List.mem_map] at hm
      obtain ⟨m0, hm0, hgm⟩ := hm
      rcases hm0id : m0.organizationId == oId with _ | _
      · rw [hm0id] at hgm
        simp only [Bool.false_eq_true, if_false] at hgm
        subst hgm
        exact absurd hmid (by simpa using hm0id)
      · rw [hm0id] at hgm
        simp only [if_true] at hgm
        subst hgm
        intro hin
        have hin2 : tId ∈ m0.teamIds.filter (fun t => !(t == tId)) := hin
        have hker := (List.mem_filter.mp hin2).2
        simp at hker
  · rw [husers]
    apply List.map_congr_left
    intro u hu
    rcases hany : u.organizationMemberships.any (fun m => m.organizationId == oId) with _ | _
    · simp only [hany, Bool.false_eq_true, if_false]
      have hcong : ∀ m ∈ u.organizationMemberships,
          (if m.organizationId == oId
           then { m with teamIds := m.teamIds.filter (fun t => !(t == tId)) }
           else m) = m := by
        intro m hm
        have hmc : (m.organizationId == oId) = false := by
          rcases hc : m.organizationId == oId with _ | _
          · rfl
          · have hcontra2 : u.organizationMemberships.any (fun m => m.organizationId == oId) = true :=
              List.any_eq_true.mpr ⟨m, hm, hc⟩
            rw [hany] at hcontra2
            exact (Bool.false_ne_true hcontra2).elim
        simp [hmc]
      have hmapeq := List.map_congr_left hcong
      rw [hmapeq]
      simp
    · simp only [hany, if_true]

/-- Witness for C4: deleting team 3 of organization 1 empties its teams
collection, strips team 3 from the membership of user 7 while keeping
both of the memberships of user 7 in place. -/
theorem deleteTeam_cascade_witness :
    (∀ o2 ∈ (deleteTeam ⟨[⟨1, "org", 0, 0, [], [⟨3, "t", none, []⟩]⟩], [⟨7, [⟨1, [3]⟩, ⟨2, [3]⟩]⟩]⟩ 1 3).organizations,
      o2.id = 1 → ∀ t ∈ o2.teams, t.id ≠ 3) ∧
    (∀ u2 ∈ (deleteTeam ⟨[⟨1, "org", 0, 0, [], [⟨3, "t", none, []⟩]⟩], [⟨7, [⟨1, [3]⟩, ⟨2, [3]⟩]⟩]⟩ 1 3).users,
      ∀ m ∈ u2.organizationMemberships, m.organizationId = 1 → 3 ∉ m.teamIds) ∧
    ((deleteTeam ⟨[⟨1, "org", 0, 0, [], [⟨3, "t", none, []⟩]⟩], [⟨7, [⟨1, [3]⟩, ⟨2, [3]⟩]⟩]⟩ 1 3).users =
      ([⟨7, [⟨1, [3]⟩, ⟨2, [3]⟩]⟩] : List User).map (fun (u : User) => { u with organizationMemberships := u.organizationMemberships.map (fun (m : Membership) => if m.organizationId == 1 then { m with teamIds := m.teamIds.filter (fun t => !(t == 3)) } else m) })) :=
  deleteTeam_cascade ⟨[⟨1, "org", 0, 0, [], [⟨3, "t", none, []⟩]⟩], [⟨7, [⟨1, [3]⟩, ⟨2, [3]⟩]⟩]⟩ 1 3
    (by decide)

/-- In a team list with pairwise distinct ids, at most one team matches
a given id. -/
theorem length_filter_teamId_le_one (v : Nat) (l : List Team)
    (h : (l.map (fun t => t.id)).Nodup) :
    (l.filter (fun t => t.id == v)).length ≤ 1 := by
  induction l with
  | nil => simp
  | cons a as ih =>
    rw [List.map_cons, List.nodup_cons] at h
    obtain ⟨hna, hnd⟩ := h
    rcases ha : a.id == v with _ | _
    · simp only [List.filter_cons, ha, Bool.false_eq_true, if_false]
      exact ih hnd
    · simp only [List.filter_cons, ha, if_true]
      have hnil : as.filter (fun t => t.id == v) = [] := by
        rw [List.filter_eq_nil_iff]
        intro t ht hc
        have hav : a.id = v := by simpa using ha
        have htv : t.id = v := by simpa using hc
        have hat : a.id = t.id := by rw [hav, htv]
        exact hna (hat ▸ List.mem_map_of_mem (fun t => t.id) ht)
      rw [hnil]
      simp

/-- C6: addUserToTeam raises NotFound exactly when the team does not
exist under the organization or no user with the given id holds a
membership entry for the organization; on success the team id is added
to the teamIds of the membership with set semantics, leaving exactly one
copy of it. The well-formedness hypotheses say ids are unique across
organizations, teams of one organization and users, and teamIds hold no
duplicates. -/
theorem addUserToTeam_notfound_iff (db : DB) (id teamId userId : Nat)
    (hOrgNodup : (db.organizations.map (fun o => o.id)).Nodup)
    (hTeamNodup : ∀ o ∈ db.organizations, (o.teams.map (fun t => t.id)).Nodup)
    (hUserNodup : (db.users.map (fun u => u.id)).Nodup)
    (hTeamIdsNodup : ∀ u ∈ db.users, ∀ m ∈ u.organizationMemberships, m.teamIds.Nodup) :
    (addUserToTeam db id teamId userId = Except.error ModelError.NotFound ↔
      (¬ ∃ o ∈ db.organizations, o.id = id ∧ ∃ t ∈ o.teams, t.id = teamId) ∨
      (¬ ∃ u ∈ db.users, u.id = userId ∧
        ∃ m ∈ u.organizationMemberships, m.organizationId = id)) ∧
    (∀ db2, addUserToTeam db id teamId userId = Except.ok db2 →
      ∀ u2 ∈ db2.users, u2.id = userId →
        ∀ m ∈ u2.organizationMemberships, m.organizationId = id →
          m.teamIds.count teamId = 1) := by
  rcases horg : db.organizations.find? (fun o => o.id == id) with _ | o
  · have hred : addUserToTeam db id teamId userId = Except.error ModelError.NotFound := by
      unfold addUserToTeam
      rw [horg]
      rfl
    have hnoorg : ¬ ∃ o ∈ db.organizations, o.id = id ∧ ∃ t ∈ o.teams, t.id = teamId := by
      rintro ⟨o, ho, hid, -⟩
      have := List.find?_eq_none.mp horg o ho
      simp [hid] at this
    refine ⟨⟨fun _ => Or.inl hnoorg, fun _ => hred⟩, ?_⟩
    intro db2 hdb2
    rw [hred] at hdb2
    exact absurd hdb2 (by simp)
  · have homem : o ∈ db.organizations := List.mem_of_find?_eq_some horg
    have hoid : o.id = id := by simpa using List.find?_some horg
    rcases hlen : ((o.teams.filter (fun t => t.id == teamId)).length == 1) with _ | _
    · have hred : addUserToTeam db id teamId userId = Except.error ModelError.NotFound := by
        unfold addUserToTeam
        rw [horg]
        dsimp only
        rw [hlen]
        rfl
      have hnoteam : ¬ ∃ o2 ∈ db.organizations, o2.id = id ∧ ∃ t ∈ o2.teams, t.id = teamId := by
        rintro ⟨o2, ho2, hid2, t, ht, htid⟩
        have heqo : o2 = o :=
          List.inj_on_of_nodup_map hOrgNodup ho2 homem (by rw [hid2, hoid])
        subst heqo
        have hmemf : t ∈ o2.teams.filter (fun t => t.id == teamId) :=
          List.mem_filter.mpr ⟨ht, by simp [htid]⟩
        have hge : 1 ≤ (o2.teams.filter (fun t => t.id == teamId)).length :=
          List.length_pos.mpr (List.ne_nil_of_mem hmemf)
        have hle : (o2.teams.filter (fun t => t.id == teamId)).length ≤ 1 :=
          length_filter_teamId_le_one teamId o2.teams (hTeamNodup o2 ho2)
        have : (o2.teams.filter (fun t => t.id == teamId)).length = 1 :=
          Nat.le_antisymm hle hge
        simp [this] at hlen
      refine ⟨⟨fun _ => Or.inl hnoteam, fun _ => hred⟩, ?_⟩
      intro db2 hdb2
      rw [hred] at hdb2
      exact absurd hdb2 (by simp)
    · have hteamex : ∃ o2 ∈ db.organizations, o2.id = id ∧ ∃ t ∈ o2.teams, t.id = teamId := by
        have hlen2 : (o.teams.filter (fun t => t.id == teamId)).length = 1 := by
          simpa using hlen
        have hne : o.teams.filter (fun t => t.id == teamId) ≠ [] := by
          intro hc
          rw [hc] at hlen2
          simp at hlen2
        obtain ⟨t, ht⟩ := List.exists_mem_of_ne_nil _ hne
        rcases List.mem_filter.mp ht with ⟨htmem, htid⟩
        exact ⟨o, homem, hoid, t, htmem, by simpa using htid⟩
      rcases huser : db.users.find? (userMembershipQuery id userId) with _ | u0
      · have hred : addUserToTeam db id teamId userId = Except.error ModelError.NotFound := by
          unfold addUserToTeam
          rw [horg]
          dsimp only
          rw [hlen, huser]
          rfl
        have hnouser : ¬ ∃ u ∈ db.users, u.id = userId ∧
            ∃ m ∈ u.organizationMemberships, m.organizationId = id := by
          rintro ⟨u, hu, huid, m, hm, hmid⟩
          have hq := List.find?_eq_none.mp huser u hu
          have : userMembershipQuery id userId u = true := by
            simp only [userMembershipQuery, Bool.and_eq_true, beq_iff_eq, List.any_eq_true]
            exact ⟨huid, m, hm, by simp [hmid]⟩
          exact hq this
        refine ⟨⟨fun _ => Or.inr hnouser, fun _ => hred⟩, ?_⟩
        intro db2 hdb2
        rw [hred] at hdb2
        exact absurd hdb2 (by simp)
      · have hu0mem : u0 ∈ db.users := List.mem_of_find?_eq_some huser
        have hq0 : userMembershipQuery id userId u0 = true := List.find?_some huser
        have hu0id : u0.id = userId := by
          have h2 := (Bool.and_eq_true _ _).mp hq0 |>.1
          simpa using h2
        have huserex : ∃ u ∈ db.users, u.id = userId ∧
            ∃ m ∈ u.organizationMemberships, m.organizationId = id := by
          have h2 := (Bool.and_eq_true _ _).mp hq0 |>.2
          obtain ⟨m, hm, hmid⟩ := List.any_eq_true.mp h2
          exact ⟨u0, hu0mem, hu0id, m, hm, by simpa using hmid⟩
        have hred : addUserToTeam db id teamId userId =
            Except.ok { db with users := updateFirst (userMembershipQuery id userId) (fun u => { u with organizationMemberships := u.organizationMemberships.map (fun m => if m.organizationId == id then { m with teamIds := addToSet teamId m.teamIds } else m) }) db.users } := by
          unfold addUserToTeam
          rw [horg]
          dsimp only
          rw [hlen, huser]
          rfl
        constructor
        · constructor
          · intro habs
            rw [hred] at habs
            exact absurd habs (by simp)
          · rintro (h | h)
            · exact absurd hteamex h
            · exact absurd huserex h
        · intro db2 hdb2 u2 hu2 hu2id m hm hmid
          rw [hred] at hdb2
          have hdb2u : db2.users = updateFirst (userMembershipQuery id userId) (fun u => { u with organizationMemberships := u.organizationMemberships.map (fun m => if m.organizationId == id then { m with teamIds := addToSet teamId m.teamIds } else m) }) db.users := by
            simp only [Except.ok.injEq] at hdb2
            rw [← hdb2]
          rw [hdb2u] at hu2
          obtain ⟨l1, l2, hdec, hfail⟩ := find_decomp _ huser
          have hupd := updateFirst_append_cons (userMembershipQuery id userId)
            (fun u => { u with organizationMemberships := u.organizationMemberships.map (fun m => if m.organizationId == id then { m with teamIds := addToSet teamId m.teamIds } else m) })
            l1 l2 hfail hq0
          rw [hdec] at hu2
          rw [hupd] at hu2
          have hnodup2 : ((l1 ++ u0 :: l2).map (fun u => u.id)).Nodup := by
            rw [← hdec]
            exact hUserNodup
          have hnotid : u0.id ∉ (l1.map (fun u => u.id)) ∧ u0.id ∉ (l2.map (fun u => u.id)) := by
            rw [List.map_append, List.map_cons] at hnodup2
            have hmid2 := List.nodup_middle.mp hnodup2
            rcases List.nodup_cons.mp hmid2 with ⟨hni, -⟩
            rw [List.mem_append] at hni
            exact ⟨fun hc => hni (Or.inl hc), fun hc => hni (Or.inr hc)⟩
          rw [List.mem_append, List.mem_cons] at hu2
          rcases hu2 with h1 | h2 | h3
          · have : u0.id ∈ l1.map (fun u => u.id) := by
              rw [hu0id, ← hu2id]
              exact List.mem_map_of_mem (fun u => u.id) h1
            exact absurd this hnotid.1
          · subst h2
            simp only [List.mem_map] at hm
            obtain ⟨m0, hm0, hgm⟩ := hm
            rcases hm0id : m0.organizationId == id with _ | _
            · rw [hm0id] at hgm
              simp only [Bool.false_eq_true, if_false] at hgm
              subst hgm
              exact absurd hmid (by simpa using hm0id)
            · rw [hm0id] at hgm
              simp only [if_true] at hgm
              subst hgm
              have hnd : m0.teamIds.Nodup := hTeamIdsNodup u0 hu0mem m0 hm0
              by_cases hintid : teamId ∈ m0.teamIds
              · have haddeq : addToSet teamId m0.teamIds = m0.teamIds := by
                  simp [addToSet, hintid]
                simpa [haddeq] using List.count_eq_one_of_mem hnd hintid
              · have haddeq : addToSet teamId m0.teamIds = m0.teamIds ++ [teamId] := by
                  simp [addToSet, hintid]
                have hz : m0.teamIds.count teamId = 0 := List.count_eq_zero.mpr hintid
                simp [haddeq, List.count_append, hz]
          · have : u0.id ∈ l2.map (fun u => u.id) := by
              rw [hu0id, ← hu2id]
              exact List.mem_map_of_mem (fun u => u.id) h3
            exact absurd this hnotid.2

/-- Witness for C6: adding member 7 to the existing team 3 a second time
keeps exactly one copy of the team id, and addressing the missing team 4
is exactly the NotFound case. -/
theorem addUserToTeam_notfound_iff_witness :
    (addUserToTeam ⟨[⟨1, "org", 0, 0, [], [⟨3, "t", none, []⟩]⟩], [⟨7, [⟨1, [3]⟩]⟩]⟩ 1 3 7 =
        Except.error ModelError.NotFound ↔
      (¬ ∃ o ∈ [(⟨1, "org", 0, 0, [], [⟨3, "t", none, []⟩]⟩ : Organization)], o.id = 1 ∧
        ∃ t ∈ o.teams, t.id = 3) ∨
      (¬ ∃ u ∈ [(⟨7, [⟨1, [3]⟩]⟩ : User)], u.id = 7 ∧
        ∃ m ∈ u.organizationMemberships, m.organizationId = 1)) ∧
    (∀ db2, addUserToTeam ⟨[⟨1, "org", 0, 0, [], [⟨3, "t", none, []⟩]⟩], [⟨7, [⟨1, [3]⟩]⟩]⟩ 1 3 7 =
        Except.ok db2 →
      ∀ u2 ∈ db2.users, u2.id = 7 →
        ∀ m ∈ u2.organizationMemberships, m.organizationId = 1 →
          m.teamIds.count 3 = 1) :=
  addUserToTeam_notfound_iff ⟨[⟨1, "org", 0, 0, [], [⟨3, "t", none, []⟩]⟩], [⟨7, [⟨1, [3]⟩]⟩]⟩
    1 3 7 (by decide) (by decide) (by decide) (by decide)

/-- The team rewrite performed by the nested setRole write: upsert one
ACE for the subject on the team ACL. -/
def grantTeam (userId : Nat) (role : String) (t : Team) : Team :=
  { t with accessControlList := setRoleACL t.accessControlList userId role }

/-- The team rewrite performed by removeTeamRole: drop every ACE of the
subject from the team ACL. -/
def revokeTeam (userId : Nat) (t : Team) : Team :=
  { t with accessControlList := removeRoleACL t.accessControlList userId }

/-- The organization rewrite of a nested grant write addressed at one
team. -/
def applyGrant (teamId userId : Nat) (role : String) (o : Organization) : Organization :=
  { o with teams := updateFirst (fun t => t.id == teamId) (grantTeam userId role) o.teams }

/-- The organization rewrite of a nested revoke write addressed at one
team. -/
def applyRevoke (teamId userId : Nat) (o : Organization) : Organization :=
  { o with teams := updateFirst (fun t => t.id == teamId) (revokeTeam userId) o.teams }

/-- C3: for a user whose membership for the organization includes the
team, granting an organization-scoped role token to the team via
setTeamRole makes isAuthorized with that required role true, and
immediately after removeTeamRole on the same team it is false again,
the role not having been effective before the grant. -/
theorem setTeamRole_propagation (db : DB) (orgId teamId : Nat) (r : String)
    (u : User) (o : Organization) (m : Membership)
    (horg : db.organizations.find? (fun o2 => o2.id == orgId) = some o)
    (hteam : o.teams.any (fun t => t.id == teamId) = true)
    (hmem : u.organizationMemberships.find? (fun m2 => m2.organizationId == orgId) = some m)
    (htid : teamId ∈ m.teamIds)
    (hfalse : isAuthorized db orgId (some [r]) u = false) :
    ∃ o1 db1, setTeamRole db orgId r teamId = Except.ok (o1, db1) ∧
      isAuthorized db1 orgId (some [r]) u = true ∧
      isAuthorized (removeTeamRole db1 orgId teamId) orgId (some [r]) u = false := by
  have hoidb : (o.id == orgId) = true := by simpa using List.find?_some horg
  have hq : orgTeamQuery orgId teamId o = true := by
    unfold orgTeamQuery
    rw [Bool.and_eq_true]
    exact ⟨hoidb, hteam⟩
  have hfq : db.organizations.find? (orgTeamQuery orgId teamId) = some o := by
    obtain ⟨l1, l2, hdec, hfail⟩ := find_decomp _ horg
    rw [hdec]
    apply find_append_cons _ _ _ _ hq
    intro y hy
    simp only [orgTeamQuery, hfail y hy, Bool.false_and]
  obtain ⟨t1, hft⟩ := Option.isSome_iff_exists.mp
    (List.find?_isSome.mpr (List.any_eq_true.mp hteam))
  have ht1id := List.find?_some hft
  have ht1idE : t1.id = teamId := by simpa using ht1id
  have hgrant_mem : grantTeam teamId r t1 ∈
      updateFirst (fun t => t.id == teamId) (grantTeam teamId r) o.teams :=
    mem_updateFirst _ _ hft
  have hgid : (grantTeam teamId r t1).id = teamId := by
    simp [grantTeam, ht1idE]
  have himp : ∀ y : Organization, orgTeamQuery orgId teamId y = true →
      (y.id == orgId) = true := by
    intro y hy
    unfold orgTeamQuery at hy
    exact ((Bool.and_eq_true _ _).mp hy).1
  have hfind1 : (updateFirst (orgTeamQuery orgId teamId) (applyGrant teamId teamId r) db.organizations).find? (fun o2 => o2.id == orgId) = some (applyGrant teamId teamId r o) := by
    apply find_updateFirst_of_entails _ _ _ hfq horg himp
    simpa [applyGrant] using hoidb
  have hrmem : r ∈ effectiveRoles (applyGrant teamId teamId r o) m u.id := by
    unfold effectiveRoles applyGrant
    dsimp only
    apply List.mem_append_right
    apply List.mem_flatMap.mpr
    refine ⟨grantTeam teamId r t1, List.mem_filter.mpr ⟨hgrant_mem, ?_⟩, ?_⟩
    · rw [hgid]
      simpa using htid
    · obtain ⟨a, ha, hau, har⟩ := setRoleACL_exists t1.accessControlList teamId r
      exact List.mem_map.mpr ⟨a, ha, har⟩
  have happ_any : (updateFirst (fun t => t.id == teamId) (grantTeam teamId r) o.teams).any (fun t => t.id == teamId) = true :=
    List.any_eq_true.mpr ⟨grantTeam teamId r t1, hgrant_mem, by simp [hgid]⟩
  have hq1 : orgTeamQuery orgId teamId (applyGrant teamId teamId r o) = true := by
    unfold orgTeamQuery applyGrant
    dsimp only
    rw [Bool.and_eq_true]
    exact ⟨hoidb, happ_any⟩
  have hfq1 : (updateFirst (orgTeamQuery orgId teamId) (applyGrant teamId teamId r) db.organizations).find? (orgTeamQuery orgId teamId) = some (applyGrant teamId teamId r o) :=
    find_updateFirst_same _ _ hfq hq1
  have hfind2 : (updateFirst (orgTeamQuery orgId teamId) (applyRevoke teamId teamId) (updateFirst (orgTeamQuery orgId teamId) (applyGrant teamId teamId r) db.organizations)).find? (fun o2 => o2.id == orgId) = some (applyRevoke teamId teamId (applyGrant teamId teamId r o)) := by
    apply find_updateFirst_of_entails _ _ _ hfq1 hfind1 himp
    simpa [applyRevoke, applyGrant] using hoidb
  have hcomb : (fun t => revokeTeam teamId (grantTeam teamId r t)) = revokeTeam teamId := by
    funext t
    simp only [revokeTeam, grantTeam]
    rw [removeRoleACL_setRoleACL]
  have hteams2 : (applyRevoke teamId teamId (applyGrant teamId teamId r o)).teams =
      updateFirst (fun t => t.id == teamId) (revokeTeam teamId) o.teams := by
    show updateFirst (fun t => t.id == teamId) (revokeTeam teamId)
        (updateFirst (fun t => t.id == teamId) (grantTeam teamId r) o.teams) = _
    rw [updateFirst_updateFirst]
    · rw [hcomb]
    · intro x
      simp [grantTeam]
  have hany0 : (effectiveRoles o m u.id).any (fun x => [r].contains x) = false := by
    unfold isAuthorized at hfalse
    rw [hmem] at hfalse
    dsimp only at hfalse
    rw [horg] at hfalse
    dsimp only at hfalse
    exact hfalse
  have hsubset : ∀ s, s ∈ effectiveRoles (applyRevoke teamId teamId (applyGrant teamId teamId r o)) m u.id → s ∈ effectiveRoles o m u.id := by
    intro s hs
    unfold effectiveRoles at hs ⊢
    rcases List.mem_append.mp hs with hl | hr2
    · apply List.mem_append_left
      exact hl
    · apply List.mem_append_right
      obtain ⟨t2, ht2, hs2⟩ := List.mem_flatMap.mp hr2
      rcases List.mem_filter.mp ht2 with ⟨ht2mem, ht2cont⟩
      rw [hteams2] at ht2mem
      rcases mem_updateFirst_cases _ _ ht2mem with hin | ⟨x, hx, hpx, heqx⟩
      · exact List.mem_flatMap.mpr ⟨t2, List.mem_filter.mpr ⟨hin, ht2cont⟩, hs2⟩
      · subst heqx
        obtain ⟨a, haf, hrole⟩ := List.mem_map.mp hs2
        have haf2 : a ∈ x.accessControlList.filter (fun a2 => !(a2.userId == teamId)) := haf
        have ha2 : a ∈ x.accessControlList := List.mem_of_mem_filter haf2
        refine List.mem_flatMap.mpr ⟨x, List.mem_filter.mpr ⟨hx, ?_⟩, List.mem_map.mpr ⟨a, ha2, hrole⟩⟩
        simpa [revokeTeam] using ht2cont
  refine ⟨applyGrant teamId teamId r o,
    { db with organizations := updateFirst (orgTeamQuery orgId teamId) (applyGrant teamId teamId r) db.organizations },
    ?_, ?_, ?_⟩
  · unfold setTeamRole setNestedUserRole
    dsimp only
    rw [hfq]
    rfl
  · unfold isAuthorized
    rw [hmem]
    dsimp only
    rw [hfind1]
    dsimp only
    exact List.any_eq_true.mpr ⟨r, hrmem, by simp⟩
  · have hrmorg : (removeTeamRole { db with organizations := updateFirst (orgTeamQuery orgId teamId) (applyGrant teamId teamId r) db.organizations } orgId teamId).organizations = updateFirst (orgTeamQuery orgId teamId) (applyRevoke teamId teamId) (updateFirst (orgTeamQuery orgId teamId) (applyGrant teamId teamId r) db.organizations) := rfl
    unfold isAuthorized
    rw [hmem]
    dsimp only
    rw [hrmorg, hfind2]
    dsimp only
    rcases hres : (effectiveRoles (applyRevoke teamId teamId (applyGrant teamId teamId r o)) m u.id).any (fun x => [r].contains x) with _ | _
    · rfl
    · obtain ⟨s, hsmem, hsc⟩ := List.any_eq_true.mp hres
      have habs : (effectiveRoles o m u.id).any (fun x => [r].contains x) = true :=
        List.any_eq_true.mpr ⟨s, hsubset s hsmem, hsc⟩
      rw [hany0] at habs
      exact habs.symm

/-- Witness for C3: organization 1 holds team 3 with an empty ACL and
member 7 belongs to team 3; ORG_ADMIN is not effective before the grant,
becomes effective through setTeamRole and stops being effective after
removeTeamRole. -/
theorem setTeamRole_propagation_witness :
    ∃ o1 db1,
      setTeamRole ⟨[⟨1, "org", 0, 0, [], [⟨3, "t", none, []⟩]⟩], [⟨7, [⟨1, [3]⟩]⟩]⟩ 1
        "ORG_ADMIN" 3 = Except.ok (o1, db1) ∧
      isAuthorized db1 1 (some ["ORG_ADMIN"]) ⟨7, [⟨1, [3]⟩]⟩ = true ∧
      isAuthorized (removeTeamRole db1 1 3) 1 (some ["ORG_ADMIN"]) ⟨7, [⟨1, [3]⟩]⟩ = false :=
  setTeamRole_propagation ⟨[⟨1, "org", 0, 0, [], [⟨3, "t", none, []⟩]⟩], [⟨7, [⟨1, [3]⟩]⟩]⟩
    1 3 "ORG_ADMIN" ⟨7, [⟨1, [3]⟩]⟩ ⟨1, "org", 0, 0, [], [⟨3, "t", none, []⟩]⟩ ⟨1, [3]⟩
    (by decide) (by decide) (by decide) (by decide) (by decide)

end OrgModel
